import Mathlib

/-!
# Verification of the counting Bloom filter (POABOB/counting-bloom-filter)

Shallow embedding of `bloom.go` (with `options.go`) into Lean 4.

Modelling conventions:
* Go strings are their UTF-8 byte sequences; a key is a `List Nat` of bytes
  (each byte taken mod 256 where it enters the hash).
* `uint64` arithmetic is `Nat` arithmetic modulo `18446744073709551616 = 2^64`.
* `uint8` counters are `Nat` modulo 256: the increment `bitmap[h]++` wraps.
* `time.Time` / `time.Duration` are `Nat` instants / spans; `time.Now()` is an
  explicit `now` parameter threaded through the operations that read the clock;
  `time.Since(ts) > d` is `now - ts > d` (callers have `ts ≤ now`).
* The Go map `timestampMap` is an association list with unique keys; map
  assignment replaces in place or appends, `delete` erases the key.
* Runtime panics (negative `make` length, reduction `% uint64(0)`) are
  modelled by `Option`-returning variants of the constructor and operations.
* The background goroutines are modelled by their per-tick bodies
  (`cleanupLazyTick`, `cleanupExpiryTick`, `cleanupResetTick`).
-/

namespace CBF

/-- Keys are Go strings viewed as UTF-8 byte lists. -/
abbrev Key := List Nat

/-- `2^64`, the modulus of Go `uint64` arithmetic. -/
def U64 : Nat := 18446744073709551616

/-- Expiry strategies, from `options.go`: `NO_EXPIRATION = 0`,
`LAZY_EXPIRATION = 1`, `RESET_EVERY_PERIOD = 2`, `EXPIRY_DURATION = 3`. -/
def NO_EXPIRATION : Nat := 0

def LAZY_EXPIRATION : Nat := 1

def RESET_EVERY_PERIOD : Nat := 2

def EXPIRY_DURATION : Nat := 3

/-- `Options` from `options.go`: the expiry strategy tag and the cleanup
period (a `time.Duration`, modelled as a `Nat`). -/
structure Options where
  expiryStrategy : Nat
  duration : Nat
  deriving Repr, DecidableEq

/-- `K = 12`, the number of hash trials (`bloom.go`). -/
def K : Nat := 12

/-- `DefaultBitSize = 1 * 1024 * 1024` (`bloom.go`). -/
def DefaultBitSize : Nat := 1 * 1024 * 1024

/-- The filter state: `bitmap []uint8`, `size int`, the options record, the
lazy-sweep cursor `currentIndex`, and `timestampMap map[string]time.Time`.
The lock `mu` and the ticker handle carry no data and are not modelled. -/
structure State where
  bitmap : List Nat
  size : Nat
  options : Options
  currentIndex : Nat
  timestampMap : List (Key × Nat)
  deriving Repr, DecidableEq

/-- FNV-1a 64-bit over the key's bytes, as computed by Go's `fnv.New64a()`
with `Write` then `Sum64`: start from the offset basis
`14695981039346656037`; for each byte, xor it in, then multiply by the FNV
prime `1099511628211`, modulo `2^64`. -/
def fnv64a (bs : List Nat) : Nat :=
  bs.foldl (fun h b => (h ^^^ (b % 256)) * 1099511628211 % U64) 14695981039346656037

/-- `hash(input, seed)` from `bloom.go`: `fnv.New64a` digest of the input
plus `uint64(seed)`, in wrapping 64-bit arithmetic. -/
def hash (input : Key) (seed : Nat) : Nat :=
  (fnv64a input + seed) % U64

/-- The index computation `hash(item, i) % uint64(cbf.size)` that `Add`,
`Check`, `Remove` and the expiry sweep all inline. -/
def index (item : Key) (i : Nat) (size : Nat) : Nat :=
  hash item i % size

/-- One `cbf.bitmap[hashValue]++` on a `uint8` cell: the new value wraps
modulo 256.  `List.set` past the end is a no-op, matching the fact that Go
would panic there (the operations only address `idx < size = length`). -/
def bumpAt (bm : List Nat) (idx : Nat) : List Nat :=
  bm.set idx ((bm.getD idx 0 + 1) % 256)

/-- One guarded decrement `if cbf.bitmap[h] > 0 { cbf.bitmap[h]-- }`:
nothing is written when the cell is already 0. -/
def decAt (bm : List Nat) (idx : Nat) : List Nat :=
  if 0 < bm.getD idx 0 then bm.set idx (bm.getD idx 0 - 1) else bm

/-- Go map assignment `m[k] = v` on the association list: replace the
binding in place if present, else append. -/
def mapSet (m : List (Key × Nat)) (k : Key) (v : Nat) : List (Key × Nat) :=
  match m with
  | [] => [(k, v)]
  | (k', v') :: rest => if k' = k then (k, v) :: rest else (k', v') :: mapSet rest k v

/-- Go `delete(m, k)` on the association list. -/
def mapErase (m : List (Key × Nat)) (k : Key) : List (Key × Nat) :=
  match m with
  | [] => []
  | (k', v') :: rest => if k' = k then rest else (k', v') :: mapErase rest k

/-- Go map lookup `m[k]`. -/
def mapLookup (m : List (Key × Nat)) (k : Key) : Option Nat :=
  match m with
  | [] => none
  | (k', v') :: rest => if k' = k then some v' else mapLookup rest k

/-- `newCountingBloomFilter(size, opts)` (`bloom.go`): `make([]uint8, size)`
zero-fills the counter array; the timestamp map starts empty.  The ticker
and the background goroutine carry no state beyond the per-tick bodies
modelled below. -/
def newCountingBloomFilter (size : Nat) (opts : Options) : State :=
  { bitmap := List.replicate size 0
    size := size
    options := opts
    currentIndex := 0
    timestampMap := [] }

/-- `Add(item)` (`bloom.go`): for `i` in `[0, K)`, increment (wrapping)
the cell at `hash(item, i) % size`; under `EXPIRY_DURATION` also record
`timestampMap[item] = time.Now()`. -/
def add (now : Nat) (s : State) (item : Key) : State :=
  { s with
    bitmap := (List.range K).foldl (fun bm i => bumpAt bm (index item i s.size)) s.bitmap
    timestampMap :=
      if s.options.expiryStrategy = EXPIRY_DURATION then mapSet s.timestampMap item now
      else s.timestampMap }

/-- The `Check` loop over the K counters: report false as soon as some
addressed cell is 0 (`List.all` short-circuits exactly like the loop's
early `return false`). -/
def allNonzero (s : State) (item : Key) : Bool :=
  (List.range K).all fun i => s.bitmap.getD (index item i s.size) 0 != 0

/-- `Remove(item)` (`bloom.go`): for `i` in `[0, K)`, decrement the cell at
`hash(item, i) % size` if it is positive; then `delete(timestampMap, item)`
unconditionally. -/
def remove (s : State) (item : Key) : State :=
  { s with
    bitmap := (List.range K).foldl (fun bm i => decAt bm (index item i s.size)) s.bitmap
    timestampMap := mapErase s.timestampMap item }

/-- `Check(item)` (`bloom.go`): if some addressed counter is 0, return
false; otherwise, under `EXPIRY_DURATION`, if `timestampMap[item]` exists
and `time.Since(it) > Duration`, call `Remove(item)` and return false; else
return true.  The returned state is the state after the call (the `Remove`
escalation is the only mutation `Check` can make). -/
def check (now : Nat) (s : State) (item : Key) : Bool × State :=
  if allNonzero s item = false then (false, s)
  else if s.options.expiryStrategy = EXPIRY_DURATION then
    match mapLookup s.timestampMap item with
    | some ts => if now - ts > s.options.duration then (false, remove s item) else (true, s)
    | none => (true, s)
  else (true, s)

/-- The boolean decision `Check`'s read phase computes under the read lock
before it releases `mu.RUnlock()` and escalates: true exactly when all K
counters are nonzero, the policy is `EXPIRY_DURATION`, the key has a
timestamp, and `time.Since(timestamp) > Duration` (the branch of `Check`
that goes on to call `Remove`). -/
def checkEscalates (now : Nat) (s : State) (item : Key) : Bool :=
  allNonzero s item &&
    s.options.expiryStrategy == EXPIRY_DURATION &&
    (match mapLookup s.timestampMap item with
     | some ts => decide (now - ts > s.options.duration)
     | none => false)

/-- `RemoveAll()` (`bloom.go`): `for i := 0; i < size; i++ { bitmap[i] = 0 }`
and a fresh empty timestamp map. -/
def removeAll (s : State) : State :=
  { s with
    bitmap := (List.range s.size).foldl (fun bm i => bm.set i 0) s.bitmap
    timestampMap := [] }

/-- The inner loop of `cleanupWithLazy`'s tick body:
`for i := 0; i < batchSize && startIndex < size; i++ { decrement; startIndex++ }`,
returning the updated bitmap and the final `startIndex`. -/
def lazyLoop (size : Nat) : List Nat → Nat → Nat → List Nat × Nat
  | bm, start, 0 => (bm, start)
  | bm, start, n + 1 =>
    if start < size then lazyLoop size (decAt bm start) (start + 1) n
    else (bm, start)

/-- One tick of `cleanupWithLazy` (`bloom.go`): under the lock, decrement a
batch of `ceil(size * 0.1)` cells from the cursor (`1000` if that is below
1, which for integral `size` means `size = 0`), then advance the cursor,
wrapping it to 0 once it reaches the end.  `int(math.Ceil(float64(size) *
0.1))` is modelled as the integer `⌈size / 10⌉ = (size + 9) / 10`. -/
def cleanupLazyTick (s : State) : State :=
  let batchSize := if (s.size + 9) / 10 < 1 then 1000 else (s.size + 9) / 10
  let r := lazyLoop s.size s.bitmap s.currentIndex batchSize
  { s with
    bitmap := r.1
    currentIndex := if s.size ≤ r.2 then 0 else r.2 }

/-- One tick of `cleanupWithReset` (`bloom.go`): just `RemoveAll()`. -/
def cleanupResetTick (s : State) : State :=
  removeAll s

/-- The bounded sweep inside one tick of `cleanupWithExpiry` (`bloom.go`):
walk the timestamp map's entries in order; for each key, if it is nonempty
and `Check` (with its possible removal side effect) reports true and the
cell at `hash(key, 0) % size` is positive, `Remove` it and count it
evicted; stop once `i`, incremented each iteration, reaches
`totalCount = 20`.  Returns the state and `evictedCount`. -/
def expirySweepFrom (now : Nat) : State → List Key → Nat → Nat → State × Nat
  | s, [], _, ev => (s, ev)
  | s, key :: rest, i, ev =>
    let step : State × Nat :=
      if key = [] then (s, ev)
      else
        let c := check now s key
        if c.1 then
          if 0 < c.2.bitmap.getD (index key 0 c.2.size) 0 then (remove c.2 key, ev + 1)
          else (c.2, ev)
        else (c.2, ev)
    if 20 ≤ i + 1 then step
    else expirySweepFrom now step.1 rest (i + 1) step.2

/-- One bounded pass of `cleanupWithExpiry` over the keys present in the
timestamp map when the tick fires. -/
def expiryPass (now : Nat) (s : State) : State × Nat :=
  expirySweepFrom now s (s.timestampMap.map Prod.fst) 0 0

/-- The re-trigger condition `float64(evictedCount)/float64(totalCount) > 0.25`
with `totalCount = 20`: exactly `5 < evictedCount` (both sides are exact in
`float64` for the values that can occur). -/
def expiryRepeatCond (evicted : Nat) : Bool :=
  5 < evicted

/-- What one tick of `cleanupWithExpiry` actually executes.  The branch
`if float64(evictedCount)/float64(totalCount) > 0.25 { continue }` runs a
Go `continue`, whose target is the enclosing `for` loop: control returns
to the `select`, which blocks on the ticker channel again.  Hence exactly
one bounded pass runs per tick, whatever the eviction ratio. -/
def cleanupExpiryTick (now : Nat) (s : State) : State :=
  (expiryPass now s).1

/-- `newCountingBloomFilter` with the Go runtime's failure modes exposed:
`make([]uint8, size)` panics when `size` is negative (`int` in Go), which
is modelled as `none`; any non-negative size, including 0, succeeds. -/
def newCountingBloomFilterChecked (size : Int) (opts : Options) : Option State :=
  if size < 0 then none else some (newCountingBloomFilter size.toNat opts)

/-- `Add` with the Go runtime's failure mode exposed: when `size = 0`, the
reduction `hash(item, i) % uint64(cbf.size)` divides by zero and panics,
modelled as `none`.  (`Check` and `Remove` fail the same way.) -/
def addChecked (now : Nat) (s : State) (item : Key) : Option State :=
  if s.size = 0 then none else some (add now s item)

/-- The spec's description of the hash, written independently of the Go
code as a direct recursion: the standard 64-bit FNV-1a over the key's
bytes (offset basis `14695981039346656037`, per byte xor-then-multiply by
the prime `1099511628211`, all modulo `2^64`). -/
def fnv1a64From (h : Nat) : List Nat → Nat
  | [] => h
  | b :: rest => fnv1a64From ((h ^^^ (b % 256)) * 1099511628211 % U64) rest

/-- The 64-bit FNV-1a digest of a byte sequence, per the spec's wording. -/
def fnv1a64Spec (bs : List Nat) : Nat :=
  fnv1a64From 14695981039346656037 bs

/-- One public facade call, for reasoning about arbitrary operation
sequences. -/
inductive Op where
  | addK (now : Nat) (k : Key)
  | checkK (now : Nat) (k : Key)
  | removeK (k : Key)
  | removeAllK
  deriving Repr, DecidableEq

/-- Apply one facade call to the state (for `Check`, keep the post-call
state). -/
def applyOp (s : State) : Op → State
  | .addK now k => add now s k
  | .checkK now k => (check now s k).2
  | .removeK k => remove s k
  | .removeAllK => removeAll s

/-- Apply a sequence of facade calls in order. -/
def applyOps (s : State) (ops : List Op) : State :=
  ops.foldl applyOp s

/-- Options with no expiry (strategy `NO_EXPIRATION`, default 60s period). -/
def optsNoExp : Options := ⟨NO_EXPIRATION, 60⟩

/-- Options with the time-based policy and a period of 10 time units. -/
def optsExp : Options := ⟨EXPIRY_DURATION, 10⟩

/-- A size-1 filter (every trial addresses cell 0) into which the key
`"a" = [97]` has been `Add`ed 64 times and nothing else has ever happened:
cell 0 has received `64 * K = 768 = 3 * 256` wrapping increments. -/
def c1State : State :=
  (List.range 64).foldl (fun s _ => add 0 s [97]) (newCountingBloomFilter 1 optsNoExp)

/-- A size-1 filter whose single `uint8` cell sits at the top value 255. -/
def c2State : State :=
  { bitmap := [255], size := 1, options := optsNoExp, currentIndex := 0, timestampMap := [] }

/-- A size-16 filter under `EXPIRY_DURATION` holding 26 distinct keys
`[107, 48+i]` all inserted at time 0, so its timestamp map has 26 entries
(no cell exceeds 21, so no increment ever wrapped). -/
def c5State : State :=
  (List.range 26).foldl (fun s i => add 0 s [107, 48 + i]) (newCountingBloomFilter 16 optsExp)

/-- A size-1 filter under `EXPIRY_DURATION` holding the key `[97]` added at
time 0 (so the key is expired at any time past the duration 10). -/
def c6State : State :=
  add 0 (newCountingBloomFilter 1 optsExp) [97]

end CBF

namespace CBF

/-! ## Helper lemmas about list cells and the update folds -/

theorem getD_set_self : ∀ (l : List Nat) (p v : Nat), p < l.length →
    (l.set p v).getD p 0 = v
  | [], _, _, h => absurd h (by simp)
  | _ :: _, 0, _, _ => rfl
  | _ :: l, p + 1, v, h => getD_set_self l p v (Nat.lt_of_succ_lt_succ (by simpa using h))

theorem getD_set_ne : ∀ (l : List Nat) (p q v : Nat), q ≠ p →
    (l.set q v).getD p 0 = l.getD p 0
  | [], _, _, _, _ => rfl
  | _ :: _, 0, 0, _, h => absurd rfl h
  | _ :: _, p + 1, 0, _, _ => rfl
  | _ :: _, 0, _ + 1, _, _ => rfl
  | _ :: l, p + 1, q + 1, v, h =>
    getD_set_ne l p q v (fun hq => h (by rw [hq]))

theorem length_foldl_pres (g : List Nat → Nat → List Nat)
    (hg : ∀ b i, (g b i).length = b.length) :
    ∀ (is : List Nat) (bm : List Nat), (is.foldl g bm).length = bm.length
  | [], _ => rfl
  | i :: is, bm => (length_foldl_pres g hg is (g bm i)).trans (hg bm i)

theorem length_bumpAt (bm : List Nat) (idx : Nat) : (bumpAt bm idx).length = bm.length := by
  simp [bumpAt]

/-- Value of a cell after the `Add` fold of K wrapping increments: the old
value plus the number of trials whose index lands on the cell, modulo 256. -/
theorem getD_foldl_bumpAt (f : Nat → Nat) (is : List Nat) :
    ∀ (bm : List Nat) (p : Nat), p < bm.length → (∀ i ∈ is, f i < bm.length) →
      bm.getD p 0 < 256 →
      (is.foldl (fun b i => bumpAt b (f i)) bm).getD p 0
        = (bm.getD p 0 + is.countP (fun i => f i == p)) % 256 := by
  induction is with
  | nil =>
    intro bm p _ _ hc
    simpa using (Nat.mod_eq_of_lt hc).symm
  | cons i is ih =>
    intro bm p hp hidx hc
    simp only [List.foldl_cons]
    have hlen : (bumpAt bm (f i)).length = bm.length := length_bumpAt bm (f i)
    have hidx' : ∀ j ∈ is, f j < (bumpAt bm (f i)).length := by
      intro j hj; rw [hlen]; exact hidx j (List.mem_cons_of_mem _ hj)
    by_cases h : f i = p
    · have hval : (bumpAt bm (f i)).getD p 0 = (bm.getD p 0 + 1) % 256 := by
        rw [h] at *
        exact getD_set_self bm p _ hp
      rw [ih (bumpAt bm (f i)) p (by rw [hlen]; exact hp) hidx'
          (by rw [hval]; exact Nat.mod_lt _ (by norm_num)), hval]
      rw [Nat.mod_add_mod]
      have hcnt : is.countP (fun j => f j == p) + 1
          = (i :: is).countP (fun j => f j == p) := by
        simp [List.countP_cons, h]
      rw [← hcnt]
      congr 1
      omega
    · have hval : (bumpAt bm (f i)).getD p 0 = bm.getD p 0 := by
        unfold bumpAt
        exact getD_set_ne bm p (f i) _ h
      rw [ih (bumpAt bm (f i)) p (by rw [hlen]; exact hp) hidx' (by rw [hval]; exact hc), hval]
      have : is.countP (fun j => f j == p) = (i :: is).countP (fun j => f j == p) := by
        simp [List.countP_cons, h]
      rw [← this]

/-- The `Remove` fold is the identity when every addressed cell is 0. -/
theorem foldl_decAt_of_zero (f : Nat → Nat) (is : List Nat) :
    ∀ bm : List Nat, (∀ i ∈ is, bm.getD (f i) 0 = 0) →
      is.foldl (fun b i => decAt b (f i)) bm = bm := by
  induction is with
  | nil => intro bm _; rfl
  | cons i is ih =>
    intro bm h
    have hstep : decAt bm (f i) = bm := by
      unfold decAt
      rw [h i (List.mem_cons_self i is)]
      simp
    simp only [List.foldl_cons, hstep]
    exact ih bm (fun j hj => h j (List.mem_cons_of_mem _ hj))

/-- A guarded decrement never turns a zero cell nonzero. -/
theorem decAt_getD_zero (bm : List Nat) (p q : Nat) (h : bm.getD p 0 = 0) :
    (decAt bm q).getD p 0 = 0 := by
  by_cases hq : q = p
  · subst hq
    unfold decAt
    rw [h]
    simpa using h
  · unfold decAt
    split
    · rw [getD_set_ne bm p q _ hq]; exact h
    · exact h

/-- The lazy sweep's inner loop never turns a zero cell nonzero. -/
theorem lazyLoop_getD_zero (size : Nat) :
    ∀ (n : Nat) (bm : List Nat) (start p : Nat), bm.getD p 0 = 0 →
      ((lazyLoop size bm start n).1).getD p 0 = 0
  | 0, _, _, _, h => h
  | n + 1, bm, start, p, h => by
    unfold lazyLoop
    split
    · exact lazyLoop_getD_zero size n (decAt bm start) (start + 1) p
        (decAt_getD_zero bm p start h)
    · exact h

theorem getD_foldl_set_zero_not_mem (is : List Nat) :
    ∀ (bm : List Nat) (p : Nat), p ∉ is →
      (is.foldl (fun b i => b.set i 0) bm).getD p 0 = bm.getD p 0 := by
  induction is with
  | nil => intro bm p _; rfl
  | cons i is ih =>
    intro bm p h
    simp only [List.foldl_cons]
    rw [ih (bm.set i 0) p (fun hm => h (List.mem_cons_of_mem _ hm))]
    exact getD_set_ne bm p i 0 (fun hq => h (hq ▸ List.mem_cons_self i is))

theorem getD_foldl_set_zero_mem (is : List Nat) :
    ∀ (bm : List Nat) (p : Nat), p ∈ is → p < bm.length →
      (is.foldl (fun b i => b.set i 0) bm).getD p 0 = 0 := by
  induction is with
  | nil => intro bm p h _; exact absurd h (List.not_mem_nil p)
  | cons i is ih =>
    intro bm p h hp
    simp only [List.foldl_cons]
    by_cases hm : p ∈ is
    · exact ih (bm.set i 0) p hm (by simpa using hp)
    · have hip : i = p := by
        rcases List.mem_cons.mp h with h' | h'
        · exact h'.symm
        · exact absurd h' hm
      rw [getD_foldl_set_zero_not_mem is (bm.set i 0) p hm, hip]
      exact getD_set_self bm p 0 hp

/-- Go map assignment then lookup of the same key. -/
theorem mapLookup_mapSet_self (k : Key) (v : Nat) :
    ∀ m : List (Key × Nat), mapLookup (mapSet m k v) k = some v
  | [] => by simp [mapSet, mapLookup]
  | (k', v') :: rest => by
    by_cases h : k' = k
    · simp [mapSet, mapLookup, h]
    · simp only [mapSet, mapLookup, if_neg h]
      exact mapLookup_mapSet_self k v rest

end CBF

namespace CBF

/-! ## Helper lemmas about the facade operations -/

/-- The Go-side fold and the spec-side recursion compute the same FNV-1a
digest. -/
theorem fnv1a64From_eq_foldl (bs : List Nat) :
    ∀ h : Nat, fnv1a64From h bs
      = bs.foldl (fun h b => (h ^^^ (b % 256)) * 1099511628211 % U64) h := by
  induction bs with
  | nil => intro h; rfl
  | cons b rest ih => intro h; simp only [fnv1a64From, List.foldl_cons]; exact ih _

theorem fnv64a_eq_fnv1a64Spec (bs : List Nat) : fnv64a bs = fnv1a64Spec bs := by
  rw [fnv1a64Spec, fnv1a64From_eq_foldl, fnv64a]

/-- Outside the time-based policy, `Check` returns its input state. -/
theorem check_snd_of_not_expiry (now : Nat) (s : State) (k : Key)
    (h : s.options.expiryStrategy ≠ EXPIRY_DURATION) :
    (check now s k).2 = s := by
  unfold check
  by_cases hb : allNonzero s k = false <;> simp [hb, h]

/-- `Check` never touches the options record. -/
theorem check_snd_options (now : Nat) (s : State) (k : Key) :
    ((check now s k).2).options = s.options := by
  unfold check
  split
  · rfl
  · split
    · split
      · split <;> simp [remove]
      · rfl
    · rfl

/-- Every facade call keeps the configuration record intact. -/
theorem applyOp_options (s : State) (o : Op) : (applyOp s o).options = s.options := by
  cases o with
  | addK now k => simp [applyOp, add]
  | checkK now k => exact check_snd_options now s k
  | removeK k => simp [applyOp, remove]
  | removeAllK => simp [applyOp, removeAll]

/-- Outside the time-based policy, a facade call on a state with an empty
timestamp map leaves it empty. -/
theorem applyOp_timestamp_empty (s : State) (o : Op)
    (hstrat : s.options.expiryStrategy ≠ EXPIRY_DURATION) (hts : s.timestampMap = []) :
    (applyOp s o).timestampMap = [] := by
  cases o with
  | addK now k => simp [applyOp, add, hstrat, hts]
  | checkK now k =>
    show ((check now s k).2).timestampMap = []
    rw [check_snd_of_not_expiry now s k hstrat]; exact hts
  | removeK k => simp [applyOp, remove, hts, mapErase]
  | removeAllK => simp [applyOp, removeAll]

/-- Projection lemmas, proved syntactically (`rw` with the defining
equations): they let later proofs rewrite without triggering definitional
unfolding of the K-step folds. -/
theorem add_bitmap (now : Nat) (s : State) (item : Key) :
    (add now s item).bitmap
      = (List.range K).foldl (fun bm i => bumpAt bm (index item i s.size)) s.bitmap := by
  rw [add]

theorem add_size (now : Nat) (s : State) (item : Key) :
    (add now s item).size = s.size := by
  rw [add]

theorem add_options (now : Nat) (s : State) (item : Key) :
    (add now s item).options = s.options := by
  rw [add]

theorem add_timestampMap (now : Nat) (s : State) (item : Key) :
    (add now s item).timestampMap
      = if s.options.expiryStrategy = EXPIRY_DURATION then mapSet s.timestampMap item now
        else s.timestampMap := by
  rw [add]

theorem remove_bitmap (s : State) (item : Key) :
    (remove s item).bitmap
      = (List.range K).foldl (fun bm i => decAt bm (index item i s.size)) s.bitmap := by
  rw [remove]

theorem remove_size (s : State) (item : Key) : (remove s item).size = s.size := by
  rw [remove]

theorem remove_options (s : State) (item : Key) : (remove s item).options = s.options := by
  rw [remove]

theorem cleanupLazyTick_bitmap (s : State) :
    (cleanupLazyTick s).bitmap
      = (lazyLoop s.size s.bitmap s.currentIndex
          (if (s.size + 9) / 10 < 1 then 1000 else (s.size + 9) / 10)).1 := by
  rw [cleanupLazyTick]

/-- If the cell addressed by trial 0 is zero, the membership loop reports
false. -/
theorem allNonzero_eq_false_of_first_zero (s : State) (k : Key)
    (h : s.bitmap.getD (index k 0 s.size) 0 = 0) : allNonzero s k = false := by
  unfold allNonzero
  rw [List.all_eq_false]
  refine ⟨0, by simp [K], ?_⟩
  simp only [List.getD_eq_getElem?_getD] at h
  simp [h]

end CBF

namespace CBF

/-- `Check` returns true when all addressed counters are nonzero and, under
the time-based policy, a present timestamp is not expired. -/
theorem check_fst_true (now : Nat) (s : State) (k : Key)
    (hAll : allNonzero s k = true)
    (hexp : s.options.expiryStrategy = EXPIRY_DURATION →
      ∀ ts, mapLookup s.timestampMap k = some ts → ¬ now - ts > s.options.duration) :
    (check now s k).1 = true := by
  unfold check
  split
  · rename_i hfalse
    rw [hAll] at hfalse
    cases hfalse
  · split
    · rename_i hstrat
      split
      · rename_i ts hl
        split
        · rename_i hgt
          exact absurd hgt (hexp hstrat ts hl)
        · rfl
      · rfl
    · rfl

end CBF

namespace CBF

/-! ## The claims -/

/-- C3: every counter stays a natural number (no wrap below zero): the
guarded decrement used by `Remove` and the lazy sweep is a no-op on a cell
already at 0; `Remove` of a key all of whose addressed counters are 0
leaves the counter array unchanged; and a zero cell stays zero across a
lazy-sweep tick. -/
theorem decrement_is_floor_at_zero (s : State) (k : Key) (p : Nat)
    (h0 : ∀ i, i < K → s.bitmap.getD (index k i s.size) 0 = 0)
    (hz : s.bitmap.getD p 0 = 0) :
    (remove s k).bitmap = s.bitmap ∧ decAt s.bitmap p = s.bitmap ∧
      (cleanupLazyTick s).bitmap.getD p 0 = 0 := by
  refine ⟨?_, ?_, ?_⟩
  · rw [remove_bitmap]
    exact foldl_decAt_of_zero _ (List.range K) s.bitmap
      (fun i hi => h0 i (List.mem_range.mp hi))
  · unfold decAt
    rw [hz]
    simp
  · rw [cleanupLazyTick_bitmap]
    exact lazyLoop_getD_zero s.size _ s.bitmap s.currentIndex p hz

/-- C3 witness: a concrete all-zero filter of size 4. -/
theorem decrement_is_floor_at_zero_witness :
    (remove (newCountingBloomFilter 4 optsNoExp) [97]).bitmap
        = (newCountingBloomFilter 4 optsNoExp).bitmap ∧
      decAt (newCountingBloomFilter 4 optsNoExp).bitmap 0
        = (newCountingBloomFilter 4 optsNoExp).bitmap ∧
      (cleanupLazyTick (newCountingBloomFilter 4 optsNoExp)).bitmap.getD 0 0 = 0 :=
  decrement_is_floor_at_zero (newCountingBloomFilter 4 optsNoExp) [97] 0
    (by decide) (by decide)

/-- C4: after `RemoveAll()`, every counter is 0, the timestamp index is
empty, and `Check` of any key returns false. -/
theorem removeAll_clears_everything (s : State) (k : Key) (now : Nat)
    (hlen : s.bitmap.length = s.size) (hsz : 0 < s.size) :
    (∀ p, p < s.size → (removeAll s).bitmap.getD p 0 = 0) ∧
      (removeAll s).timestampMap = [] ∧
      (check now (removeAll s) k).1 = false := by
  have hzero : ∀ p, p < s.size → (removeAll s).bitmap.getD p 0 = 0 := by
    intro p hp
    exact getD_foldl_set_zero_mem (List.range s.size) s.bitmap p
      (List.mem_range.mpr hp) (by rw [hlen]; exact hp)
  refine ⟨hzero, rfl, ?_⟩
  have h0 : (removeAll s).bitmap.getD (index k 0 (removeAll s).size) 0 = 0 :=
    hzero _ (Nat.mod_lt _ hsz)
  have hfalse : allNonzero (removeAll s) k = false :=
    allNonzero_eq_false_of_first_zero _ k h0
  unfold check
  rw [hfalse]
  simp

/-- C4 witness: a concrete filter of size 3 with nonzero cells and a
timestamp entry. -/
theorem removeAll_clears_everything_witness :
    (∀ p, p < (3 : Nat) →
        (removeAll ⟨[7, 250, 1], 3, optsExp, 0, [([97], 2)]⟩).bitmap.getD p 0 = 0) ∧
      (removeAll ⟨[7, 250, 1], 3, optsExp, 0, [([97], 2)]⟩).timestampMap = [] ∧
      (check 5 (removeAll ⟨[7, 250, 1], 3, optsExp, 0, [([97], 2)]⟩) [97]).1 = false :=
  removeAll_clears_everything ⟨[7, 250, 1], 3, optsExp, 0, [([97], 2)]⟩ [97] 5
    (by decide) (by decide)

/-- C8: for every key, trial and positive size, the index used by
`Add`/`Check`/`Remove` is the 64-bit FNV-1a digest of the key's bytes plus
the trial in wrapping 64-bit arithmetic, reduced modulo `size`, and it
always lies in `[0, size)`.  (It is a pure function of `(key, trial, size)`
by construction.) -/
theorem index_is_fnv1a_plus_trial_mod_size (k : Key) (trial size : Nat)
    (hsz : 0 < size) :
    index k trial size = ((fnv1a64Spec k + trial) % 2 ^ 64) % size ∧
      index k trial size < size := by
  constructor
  · have hU : U64 = 2 ^ 64 := by norm_num [U64]
    unfold index hash
    rw [fnv64a_eq_fnv1a64Spec, hU]
  · exact Nat.mod_lt _ hsz

/-- C8 witness: key `"a" = [97]`, trial 3, size 7. -/
theorem index_is_fnv1a_plus_trial_mod_size_witness :
    index [97] 3 7 = ((fnv1a64Spec [97] + 3) % 2 ^ 64) % 7 ∧ index [97] 3 7 < 7 :=
  index_is_fnv1a_plus_trial_mod_size [97] 3 7 (by decide)

/-- C9: under every policy other than `EXPIRY_DURATION`, the timestamp
index stays empty across any sequence of `Add`/`Check`/`Remove`/`RemoveAll`
calls on a freshly constructed filter. -/
theorem timestamp_index_stays_empty (size : Nat) (opts : Options) (ops : List Op)
    (h : opts.expiryStrategy ≠ EXPIRY_DURATION) :
    (applyOps (newCountingBloomFilter size opts) ops).timestampMap = [] := by
  suffices hgen : ∀ (l : List Op) (s : State),
      s.options.expiryStrategy ≠ EXPIRY_DURATION → s.timestampMap = [] →
      (applyOps s l).timestampMap = [] by
    exact hgen ops _ h rfl
  intro l
  induction l with
  | nil => intro s _ h2; exact h2
  | cons o rest ih =>
    intro s h1 h2
    show (applyOps (applyOp s o) rest).timestampMap = []
    exact ih _ (by rw [applyOp_options]; exact h1) (applyOp_timestamp_empty s o h1 h2)

/-- C9 witness: a concrete sequence of all four operations under the lazy
policy. -/
theorem timestamp_index_stays_empty_witness :
    (applyOps (newCountingBloomFilter 4 ⟨LAZY_EXPIRATION, 10⟩)
        [.addK 0 [97], .checkK 1 [97], .removeK [98], .removeAllK]).timestampMap = [] :=
  timestamp_index_stays_empty 4 ⟨LAZY_EXPIRATION, 10⟩
    [.addK 0 [97], .checkK 1 [97], .removeK [98], .removeAllK] (by decide)

/-- C10: when the policy is not `EXPIRY_DURATION`, `Check` mutates nothing
(the post-state equals the pre-state, covering the counter array, the
timestamp index and the sweep cursor) and its boolean result is exactly the
pure membership test `allNonzero` of the pre-state. -/
theorem check_is_pure_outside_expiry_policy (now : Nat) (s : State) (k : Key)
    (h : s.options.expiryStrategy ≠ EXPIRY_DURATION) :
    (check now s k).2 = s ∧ (check now s k).1 = allNonzero s k := by
  refine ⟨check_snd_of_not_expiry now s k h, ?_⟩
  unfold check
  by_cases hb : allNonzero s k = false
  · simp [hb]
  · rw [Bool.not_eq_false] at hb
    simp [hb, h]

/-- C10 witness: a concrete filter with a nonzero bitmap under the reset
policy. -/
theorem check_is_pure_outside_expiry_policy_witness :
    (check 9 ⟨[5, 5], 2, ⟨RESET_EVERY_PERIOD, 10⟩, 1, []⟩ [97]).2
        = ⟨[5, 5], 2, ⟨RESET_EVERY_PERIOD, 10⟩, 1, []⟩ ∧
      (check 9 ⟨[5, 5], 2, ⟨RESET_EVERY_PERIOD, 10⟩, 1, []⟩ [97]).1
        = allNonzero ⟨[5, 5], 2, ⟨RESET_EVERY_PERIOD, 10⟩, 1, []⟩ [97] :=
  check_is_pure_outside_expiry_policy 9 ⟨[5, 5], 2, ⟨RESET_EVERY_PERIOD, 10⟩, 1, []⟩ [97]
    (by decide)

end CBF

namespace CBF

set_option maxRecDepth 100000 in
set_option maxHeartbeats 4000000 in
/-- C1 counterexample: in a size-1 filter (no expiry policy, no `Remove`
or `RemoveAll` ever called), after the 64th consecutive `Add` of the key
`"a"`, `Check("a")` returns false: the 768 wrapping `uint8` increments
leave the single counter at `768 % 256 = 0`, a false negative produced by
`Add` alone. -/
theorem no_false_negatives_counterexample :
    (check 0 c1State [97]).1 = false ∧ c1State.timestampMap = [] := by
  constructor
  · decide
  · decide

/-- C1 (amended): after `Add(k)` and before any `Remove(k)`, `RemoveAll()`
or expiry activity affecting `k`, `Check(k)` returns true, provided the
prior `Add` traffic left every counter addressed by `k` low enough not to
wrap: each addressed cell holds at most `255 - K`, so the at most `K`
increments of this `Add` cannot reach 256.  (Checking at the same instant
`now` as the `Add` also covers the time-based policy: the fresh timestamp
is not expired.) -/
theorem check_true_after_add_without_wrap (s : State) (k : Key) (now : Nat)
    (hlen : s.bitmap.length = s.size) (hsz : 0 < s.size)
    (hsmall : ∀ i, i < K → s.bitmap.getD (index k i s.size) 0 + K ≤ 255) :
    (check now (add now s k) k).1 = true := by
  have hAll : allNonzero (add now s k) k = true := by
    unfold allNonzero
    rw [List.all_eq_true]
    intro i hi
    have hiK : i < K := List.mem_range.mp hi
    rw [add_size, add_bitmap]
    have hplen : ∀ j, index k j s.size < s.bitmap.length := by
      intro j; rw [hlen]; exact Nat.mod_lt _ hsz
    have hc : s.bitmap.getD (index k i s.size) 0 < 256 := by
      have := hsmall i hiK; omega
    rw [getD_foldl_bumpAt (fun j => index k j s.size) (List.range K) s.bitmap
      (index k i s.size) (hplen i) (fun j _ => hplen j) hc]
    have hm1 : 0 < (List.range K).countP (fun j => index k j s.size == index k i s.size) :=
      List.countP_pos.mpr ⟨i, hi, by simp⟩
    have hmK : (List.range K).countP (fun j => index k j s.size == index k i s.size) ≤ K := by
      have hlenK : (List.range K).countP (fun j => index k j s.size == index k i s.size)
          ≤ (List.range K).length := List.countP_le_length _
      simpa using hlenK
    have hlt : s.bitmap.getD (index k i s.size) 0
        + (List.range K).countP (fun j => index k j s.size == index k i s.size) < 256 := by
      have := hsmall i hiK; omega
    rw [Nat.mod_eq_of_lt hlt]
    simp only [bne_iff_ne, ne_eq]
    omega
  refine check_fst_true now (add now s k) k hAll ?_
  intro hstrat ts hts
  rw [add_options] at hstrat
  rw [add_timestampMap, if_pos hstrat, mapLookup_mapSet_self] at hts
  have hts' : ts = now := (Option.some.inj hts).symm
  rw [add_options, hts']
  omega

/-- C1 witness: a fresh size-8 filter, one `Add` of `"a"`, then `Check`. -/
theorem check_true_after_add_without_wrap_witness :
    (check 0 (add 0 (newCountingBloomFilter 8 optsNoExp) [97]) [97]).1 = true :=
  check_true_after_add_without_wrap (newCountingBloomFilter 8 optsNoExp) [97] 0
    (by decide) (by decide) (by decide)

/-- C2 counterexample: in a filter whose (single) cell already holds the
top `uint8` value 255, `Add("a")` does not leave the cell at 255 as
saturating increments would: the twelve wrapping increments take it to
`(255 + 12) % 256 = 11`. -/
theorem add_saturation_counterexample :
    (add 0 c2State [97]).bitmap.getD 0 0 = 11 ∧
      (add 0 c2State [97]).bitmap.getD 0 0 ≠ 255 := by
  constructor
  · decide
  · decide

/-- C2 (amended): `Add(key)` increments each of the K addressed counters
by 1 in wrapping modulo-256 (`uint8`) arithmetic — the final value of cell
`p` is the old value plus the number of trials addressing `p`, reduced mod
256 — rather than saturating: a counter at 255 wraps past 0 instead of
staying at 255. -/
theorem add_increments_wrap_mod256 (now : Nat) (s : State) (k : Key) (p : Nat)
    (hlen : s.bitmap.length = s.size) (hsz : 0 < s.size) (hp : p < s.size)
    (hbyte : s.bitmap.getD p 0 < 256) :
    (add now s k).bitmap.getD p 0
      = (s.bitmap.getD p 0
          + (List.range K).countP (fun i => index k i s.size == p)) % 256 := by
  rw [add_bitmap]
  exact getD_foldl_bumpAt (fun i => index k i s.size) (List.range K) s.bitmap p
    (by rw [hlen]; exact hp) (fun j _ => by rw [hlen]; exact Nat.mod_lt _ hsz) hbyte

/-- C2 witness: cell 2 of a fresh size-4 filter after one `Add` of `"a"`. -/
theorem add_increments_wrap_mod256_witness :
    (add 0 (newCountingBloomFilter 4 optsNoExp) [97]).bitmap.getD 2 0
      = ((newCountingBloomFilter 4 optsNoExp).bitmap.getD 2 0
          + (List.range K).countP
              (fun i => index [97] i (newCountingBloomFilter 4 optsNoExp).size == 2)) % 256 :=
  add_increments_wrap_mod256 0 (newCountingBloomFilter 4 optsNoExp) [97] 2
    (by decide) (by decide) (by decide) (by decide)

set_option maxRecDepth 100000 in
set_option maxHeartbeats 4000000 in
/-- C5: at a tick whose bounded sweep evicts more than 25 percent of the
fixed batch denominator 20 (here all 20 visited keys of the 26 present are
evicted), the code's re-trigger condition holds, yet the tick performs
exactly the single bounded pass — the `continue` statement targets the
enclosing `for` loop, so control re-enters the `select` and blocks on the
ticker channel instead of repeating within the same tick.  A second pass
would observably change the state (it would evict the remaining 6 keys),
so the missing repeat is not benign. -/
theorem expiry_tick_runs_single_pass_despite_ratio :
    expiryRepeatCond (expiryPass 5 c5State).2 = true ∧
      cleanupExpiryTick 5 c5State = (expiryPass 5 c5State).1 ∧
      (expiryPass 5 (cleanupExpiryTick 5 c5State)).1.timestampMap
        ≠ (cleanupExpiryTick 5 c5State).timestampMap := by
  refine ⟨by decide, rfl, by decide⟩

set_option maxRecDepth 100000 in
set_option maxHeartbeats 4000000 in
/-- C6: the expired-key escalation inside `Check` is not atomic.  In
`c6State` the key `"a"` is present once and expired at time 100, so
`Check`'s read phase (under the read lock) decides to remove it.  The code
then releases the read lock and calls `Remove`, which re-acquires the
write lock without revalidating.  If between the two locks another thread
runs `Remove("a")` followed by a fresh `Add("a")` (at time 100, not
expired), the pending unconditional `Remove` erases that fresh insertion:
the subsequent `Check("a")` at time 100 returns false, i.e. the concurrent
`Add` is lost exactly as the spec forbids. -/
theorem check_escalation_loses_concurrent_add :
    checkEscalates 100 c6State [97] = true ∧
      (check 100 (remove (add 100 (remove c6State [97]) [97]) [97]) [97]).1 = false := by
  constructor
  · decide
  · decide

/-- C7 counterexample: construction with `size = 0` is not guarded — the
constructor succeeds and returns a filter — while a later `Add` performs
the reduction `hash % uint64(0)` and fails (a Go runtime panic, modelled
as `none`). -/
theorem zero_size_unguarded_counterexample :
    (newCountingBloomFilterChecked 0 optsNoExp).isSome = true ∧
      (newCountingBloomFilterChecked 0 optsNoExp).bind (fun f => addChecked 0 f [97])
        = none := by
  constructor
  · decide
  · decide

/-- C7 (amended): only negative sizes fail fast at construction (the
slice allocation `make([]uint8, size)` panics); `size = 0` is not
rejected: the constructor returns a filter on which every subsequent
`Add` (likewise `Check`/`Remove`) hits reduction modulo zero, failing only
at operation time. -/
theorem construction_size_guard (n : Int) (opts : Options) (k : Key) (now : Nat) :
    (newCountingBloomFilterChecked n opts = none ↔ n < 0) ∧
      ∀ f, newCountingBloomFilterChecked n opts = some f →
        (addChecked now f k = none ↔ n ≤ 0) := by
  constructor
  · unfold newCountingBloomFilterChecked
    by_cases h : n < 0 <;> simp [h]
  · intro f hf
    unfold newCountingBloomFilterChecked at hf
    by_cases h : n < 0
    · rw [if_pos h] at hf; cases hf
    · rw [if_neg h] at hf
      have hf' : f = newCountingBloomFilter n.toNat opts := (Option.some.inj hf).symm
      subst hf'
      unfold addChecked
      have hsize : (newCountingBloomFilter n.toNat opts).size = n.toNat := rfl
      rw [hsize]
      by_cases hz : n.toNat = 0
      · rw [if_pos hz]
        exact iff_of_true rfl (Int.toNat_eq_zero.mp hz)
      · rw [if_neg hz]
        constructor
        · intro hco
          cases hco
        · intro hle
          exact absurd hle (by omega)

/-- C7 witness: size 0 passes construction and the first `Add` fails. -/
theorem construction_size_guard_witness :
    addChecked 0 (newCountingBloomFilter 0 optsNoExp) [97] = none :=
  ((construction_size_guard 0 optsNoExp [97] 0).2
      (newCountingBloomFilter 0 optsNoExp) (by decide)).mpr (by decide)

end CBF
